import Mathlib

/-!
Shallow embedding of the Fyrox renderer geometry cache
(`src/renderer/cache/geometry.rs`) and of its external collaborators.

Modelling conventions:
* The `f32` time-to-live values are modelled as exact rationals (`ℚ`); every
  lifetime arithmetic appearing in the specification (5.0 - 3.0 - 3.0, …) is
  exact in `f32`, so the rational model is faithful on these values.
* `u64` modification counters and layout hashes are modelled as `Nat`
  (no overflow is exercised by any operation modelled here).
* The GPU layer (`PipelineState`, `GeometryBuffer`) is external to the
  repository sources; it is modelled from the spec (§6) as a buffer-identity
  generator plus an event log so that "builds a new buffer" and "uploads
  data" are observable.
* The sparse slot store (`SparseBuffer`, fyrox-core `sparse` module) is not
  under the provided sources; it is modelled from the spec (§4.1, §9).
-/

/-- GPU commands issued by the cache to the external graphics layer.
Modelled from the spec: the cache consumes "an operation to allocate a new
device buffer from vertex+index payload", "an operation to overwrite buffer
contents at a byte offset", and "an operation to replace the index/topology
list" (spec §6). -/
inductive GpuEvent where
  | createBuffer (id : Nat) (vertexData : List Nat) (triangles : List (Nat × Nat × Nat))
  | setBufferData (id : Nat) (byteOffset : Nat) (data : List Nat)
  | setTriangles (id : Nat) (triangles : List (Nat × Nat × Nat))
  deriving DecidableEq

/-- Modelled from the spec: the external graphics-device context threaded
through all GPU calls.  It carries a fresh-identity counter for newly
allocated buffer objects and the log of GPU commands issued so far. -/
structure PipelineState where
  nextBufferId : Nat
  log : List GpuEvent
  deriving DecidableEq

/-- Modelled from the spec: a GPU-resident buffer object.  `id` is the
device-side identity of the buffer object ("the same underlying buffer
object" is identity of `id`); it also stores the uploaded vertex payload
and index/topology list. -/
structure GeometryBuffer where
  id : Nat
  vertexData : List Nat
  triangles : List (Nat × Nat × Nat)
  deriving DecidableEq

/-- Overwrite a byte range of a payload starting at `byteOffset`. -/
def writeBytes (old : List Nat) (byteOffset : Nat) (data : List Nat) : List Nat :=
  old.take byteOffset ++ data ++ old.drop (byteOffset + data.length)

/-- Modelled from the spec: "an operation to overwrite buffer contents at a
byte offset" (spec §6); logs the upload. -/
def GeometryBuffer.set_buffer_data (b : GeometryBuffer) (state : PipelineState)
    (byteOffset : Nat) (data : List Nat) : GeometryBuffer × PipelineState :=
  ({ b with vertexData := writeBytes b.vertexData byteOffset data },
   { state with log := state.log ++ [GpuEvent.setBufferData b.id byteOffset data] })

/-- Modelled from the spec: "an operation to replace the index/topology list"
(spec §6); in the source this is reached through `bind(state)`, which is a
pure GL binding with no observable cache-level effect. -/
def GeometryBuffer.set_triangles (b : GeometryBuffer) (state : PipelineState)
    (triangles : List (Nat × Nat × Nat)) : GeometryBuffer × PipelineState :=
  ({ b with triangles := triangles },
   { state with log := state.log ++ [GpuEvent.setTriangles b.id triangles] })

/-- CPU-side vertex buffer of a surface: raw payload, monotone modification
counter and structural layout hash (spec §3; external to the cache). -/
structure VertexBuffer where
  raw_data : List Nat
  modifications_count : Nat
  layout_hash : Nat
  deriving DecidableEq

/-- CPU-side triangle/index buffer of a surface, with its own modification
counter (spec §3).  In the source this field is named `geometry_buffer`. -/
structure TriangleBuffer where
  triangles : List (Nat × Nat × Nat)
  modifications_count : Nat
  deriving DecidableEq

/-- Modelled from the spec: CPU-side geometry source object (`SurfaceData`):
vertex buffer, triangle buffer, and the back-reference cell (`cache_entry`,
an `AtomicIndex` in the source; `none` is the "unset" sentinel). -/
structure SurfaceData where
  vertex_buffer : VertexBuffer
  geometry_buffer : TriangleBuffer
  cache_entry : Option Nat
  deriving DecidableEq

/-- Modelled from the spec: "an operation to allocate a new device buffer
from vertex+index payload" (spec §6).  Mirrors
`GeometryBuffer::from_surface_data(data, GeometryBufferKind::StaticDraw,
state)`: allocates a fresh buffer identity and uploads the full current
vertex and triangle data. -/
def GeometryBuffer.from_surface_data (data : SurfaceData) (state : PipelineState) :
    GeometryBuffer × PipelineState :=
  let b : GeometryBuffer :=
    { id := state.nextBufferId
      vertexData := data.vertex_buffer.raw_data
      triangles := data.geometry_buffer.triangles }
  (b, { nextBufferId := state.nextBufferId + 1
        log := state.log ++ [GpuEvent.createBuffer b.id b.vertexData b.triangles] })

/-- `TimeToLive(pub f32)` from the source, with `f32` modelled as `ℚ`. -/
structure TimeToLive where
  val : ℚ
  deriving DecidableEq

/-- Modelled from the spec: "Lifetime defaults to a process-wide constant
when the caller supplies none" (spec §4.2); the constant lives in
`asset::entry`, outside the provided sources.  Its numeric value is
immaterial to every claim. -/
def DEFAULT_RESOURCE_LIFETIME : ℚ := 60

/-- `impl Default for TimeToLive` from the source. -/
def TimeToLive.default : TimeToLive := ⟨DEFAULT_RESOURCE_LIFETIME⟩

/-- `CacheEntry` from the source: one GPU buffer plus the three staleness
watermarks and the remaining lifetime. -/
structure CacheEntry where
  buffer : GeometryBuffer
  vertex_modifications_count : Nat
  triangles_modifications_count : Nat
  layout_hash : Nat
  time_to_live : TimeToLive
  deriving DecidableEq

/-- Modelled from the spec: the sparse slot store (fyrox-core
`SparseBuffer`), "a growable array of optional slots and a free-index
stack; never relocate live entries" (spec §4.1, §9). -/
structure SparseBuffer (α : Type) where
  vec : List (Option α)
  free_stack : List Nat
  deriving DecidableEq

/-- High-water mark of allocated slots, tombstoned gaps included (spec §4.1). -/
def SparseBuffer.len {α : Type} (b : SparseBuffer α) : Nat :=
  b.vec.length

/-- Bounds- and tombstone-checked positional lookup: `none` for freed or
out-of-range indices (spec §4.1). -/
def SparseBuffer.get_raw {α : Type} (b : SparseBuffer α) (i : Nat) : Option α :=
  (b.vec.getD i none)

/-- Lookup through a back-reference cell; the unset sentinel misses. -/
def SparseBuffer.get_mut {α : Type} (b : SparseBuffer α) (i : Option Nat) : Option α :=
  match i with
  | none => none
  | some n => b.get_raw n

/-- Insert an entry, reusing the most recently freed slot when one exists,
otherwise growing the array; returns the stable index (spec §4.1). -/
def SparseBuffer.spawn {α : Type} (b : SparseBuffer α) (entry : α) : Nat × SparseBuffer α :=
  match b.free_stack with
  | i :: rest => (i, { vec := b.vec.set i (some entry), free_stack := rest })
  | [] => (b.vec.length, { vec := b.vec ++ [some entry], free_stack := [] })

/-- Remove and tombstone a live slot for reuse; freeing a dead or
out-of-range slot is a no-op (spec §4.1). -/
def SparseBuffer.free_raw {α : Type} (b : SparseBuffer α) (i : Nat) : SparseBuffer α :=
  if (b.get_raw i).isSome then
    { vec := b.vec.set i none, free_stack := i :: b.free_stack }
  else b

/-- Write through a previously obtained `get_mut` reference: the in-place
mutation of the entry at slot `i` performed by the hit path of `get`. -/
def SparseBuffer.set_at {α : Type} (b : SparseBuffer α) (i : Nat) (entry : α) : SparseBuffer α :=
  { vec := b.vec.set i (some entry), free_stack := b.free_stack }

/-- `clear()`: drops all entries and resets the free list (spec §4.1). -/
def SparseBuffer.clear {α : Type} (_b : SparseBuffer α) : SparseBuffer α :=
  { vec := [], free_stack := [] }

/-- Well-formedness of the free stack: every stacked index is in bounds and
names a tombstoned slot, and no index is stacked twice.  This is the
resting invariant of the store; every operation below preserves it. -/
def SparseBuffer.WF {α : Type} (b : SparseBuffer α) : Prop :=
  (∀ i ∈ b.free_stack, i < b.vec.length ∧ b.vec.getD i none = none) ∧ b.free_stack.Nodup

/-- `GeometryCache` from the source: the sparse store of cache entries. -/
structure GeometryCache where
  buffer : SparseBuffer CacheEntry
  deriving DecidableEq

/-- `GeometryCache::default()`. -/
def emptyCache : GeometryCache :=
  { buffer := { vec := [], free_stack := [] } }

/-- Result of `create_geometry_buffer`: the Rust function returns the new
`AtomicIndex` and mutates the store, the pipeline state and the source's
back-reference cell in place; the record collects all four outputs. -/
structure CreateResult where
  index : Nat
  buffer : SparseBuffer CacheEntry
  state : PipelineState
  data : SurfaceData
  deriving DecidableEq

/-- `create_geometry_buffer` from the source: build a GPU buffer from the
full surface data, spawn a fresh entry whose watermarks are the source's
current counters and hash, and point the source's back-reference cell at
the new slot. -/
def create_geometry_buffer (data : SurfaceData) (state : PipelineState)
    (buffer : SparseBuffer CacheEntry) (time_to_live : TimeToLive) : CreateResult :=
  let gs := GeometryBuffer.from_surface_data data state
  let ib := buffer.spawn
    { buffer := gs.1
      vertex_modifications_count := data.vertex_buffer.modifications_count
      triangles_modifications_count := data.geometry_buffer.modifications_count
      layout_hash := data.vertex_buffer.layout_hash
      time_to_live := time_to_live }
  { index := ib.1, buffer := ib.2, state := gs.2
    data := { data with cache_entry := some ib.1 } }

/-- The hit test of `GeometryCache::get`: the back-reference resolves to a
live entry AND the entry's stored layout hash equals the source's current
layout hash.  Returns the slot index together with the entry. -/
def GeometryCache.lookupHit (c : GeometryCache) (data : SurfaceData) :
    Option (Nat × CacheEntry) :=
  match data.cache_entry with
  | none => none
  | some i =>
    match c.buffer.get_raw i with
    | none => none
    | some entry =>
      if entry.layout_hash = data.vertex_buffer.layout_hash then some (i, entry) else none

/-- Body of the hit path of `GeometryCache::get`: push the vertex payload if
the vertex counter moved, rebuild the topology if the triangle counter
moved, advance the corresponding watermarks, and refresh the lifetime. -/
def hitUpdate (entry : CacheEntry) (data : SurfaceData) (state : PipelineState)
    (ttl : TimeToLive) : CacheEntry × PipelineState :=
  let p1 :=
    if data.vertex_buffer.modifications_count ≠ entry.vertex_modifications_count then
      let bs := entry.buffer.set_buffer_data state 0 data.vertex_buffer.raw_data
      ({ entry with
          buffer := bs.1
          vertex_modifications_count := data.vertex_buffer.modifications_count }, bs.2)
    else (entry, state)
  let p2 :=
    if data.geometry_buffer.modifications_count ≠ p1.1.triangles_modifications_count then
      let bs := p1.1.buffer.set_triangles p1.2 data.geometry_buffer.triangles
      ({ p1.1 with
          buffer := bs.1
          triangles_modifications_count := data.geometry_buffer.modifications_count }, bs.2)
    else p1
  ({ p2.1 with time_to_live := ttl }, p2.2)

/-- Result of `GeometryCache::get`: the returned buffer plus the mutated
cache, source object and pipeline state. -/
structure GetResult where
  buffer : GeometryBuffer
  cache : GeometryCache
  data : SurfaceData
  state : PipelineState
  deriving DecidableEq

/-- `GeometryCache::get` from the source.  The two `unwrap()` re-lookups of
the source are modelled as `Option` matches returning `none` when they
would panic, so that their infallibility is a provable statement. -/
def GeometryCache.get (c : GeometryCache) (state : PipelineState) (data : SurfaceData)
    (ttl : TimeToLive) : Option GetResult :=
  match c.lookupHit data with
  | some ie =>
    let es := hitUpdate ie.2 data state ttl
    let c2 : GeometryCache := { buffer := c.buffer.set_at ie.1 es.1 }
    match c2.buffer.get_mut data.cache_entry with
    | some e => some { buffer := e.buffer, cache := c2, data := data, state := es.2 }
    | none => none
  | none =>
    let r := create_geometry_buffer data state c.buffer ttl
    match r.buffer.get_raw r.index with
    | some e =>
      some { buffer := e.buffer, cache := { buffer := r.buffer }, data := r.data
             state := r.state }
    | none => none

/-- The first loop of `GeometryCache::update`: `iter_mut` over all live
entries, decrementing each remaining lifetime by `dt`. -/
def decayAll (b : SparseBuffer CacheEntry) (dt : ℚ) : SparseBuffer CacheEntry :=
  { vec := b.vec.map (Option.map
      (fun e => { e with time_to_live := ⟨e.time_to_live.val - dt⟩ }))
    free_stack := b.free_stack }

/-- One iteration of the eviction sweep of `GeometryCache::update`: free
slot `i` when it holds a live entry whose remaining lifetime is ≤ 0. -/
def sweepStep (acc : SparseBuffer CacheEntry) (i : Nat) : SparseBuffer CacheEntry :=
  match acc.get_raw i with
  | some entry => if entry.time_to_live.val ≤ 0 then acc.free_raw i else acc
  | none => acc

/-- The second loop of `GeometryCache::update`: positional scan over all
slots `0 .. len`, freeing every expired entry. -/
def evictSweep (b : SparseBuffer CacheEntry) : SparseBuffer CacheEntry :=
  (List.range b.len).foldl sweepStep b

/-- `GeometryCache::update` from the source: decrement every live entry's
remaining lifetime by `dt`, then run the eviction sweep. -/
def GeometryCache.update (c : GeometryCache) (dt : ℚ) : GeometryCache :=
  { buffer := evictSweep (decayAll c.buffer dt) }

/-- `GeometryCache::clear` from the source. -/
def GeometryCache.clear (c : GeometryCache) : GeometryCache :=
  { buffer := c.buffer.clear }

/-- The cache entry that the miss path of `get` spawns: a freshly built GPU
buffer with watermarks equal to the source's current counters and hash. -/
def freshEntry (data : SurfaceData) (state : PipelineState) (ttl : TimeToLive) : CacheEntry :=
  { buffer := (GeometryBuffer.from_surface_data data state).1
    vertex_modifications_count := data.vertex_buffer.modifications_count
    triangles_modifications_count := data.geometry_buffer.modifications_count
    layout_hash := data.vertex_buffer.layout_hash
    time_to_live := ttl }

/-- The entry contents that the back-reference slot must hold right after a
`get` issued on source `d` returned buffer `b` with requested lifetime `t`:
watermarks and layout hash synchronized with the source, lifetime `t`. -/
def syncedEntry (d : SurfaceData) (b : GeometryBuffer) (t : TimeToLive) : CacheEntry :=
  { buffer := b
    vertex_modifications_count := d.vertex_buffer.modifications_count
    triangles_modifications_count := d.geometry_buffer.modifications_count
    layout_hash := d.vertex_buffer.layout_hash
    time_to_live := t }

/-- The resting invariant `SparseBuffer.WF` is decidable, so concrete
witnesses can discharge it by evaluation. -/
instance {α : Type} [DecidableEq α] (b : SparseBuffer α) : Decidable b.WF :=
  instDecidableAnd

/-! ### Concrete demonstration objects used by scenarios and witnesses -/

/-- A concrete geometry source object, never cached yet. -/
def demoData : SurfaceData :=
  { vertex_buffer := { raw_data := [1, 2, 3], modifications_count := 0, layout_hash := 7 }
    geometry_buffer := { triangles := [(0, 1, 2)], modifications_count := 0 }
    cache_entry := none }

/-- A second concrete source object with contents identical to `demoData`
but distinct identity (its own back-reference cell). -/
def demoDataB : SurfaceData := demoData

/-- A fresh pipeline state. -/
def demoState : PipelineState := { nextBufferId := 0, log := [] }

/-- The GPU buffer built for `demoData` by a first-time miss on a fresh
pipeline state. -/
def demoBuf : GeometryBuffer := { id := 0, vertexData := [1, 2, 3], triangles := [(0, 1, 2)] }

/-- The cache entry created for `demoData` with lifetime 5. -/
def demoEntry : CacheEntry :=
  { buffer := demoBuf
    vertex_modifications_count := 0
    triangles_modifications_count := 0
    layout_hash := 7
    time_to_live := ⟨5⟩ }

/-- The cache holding exactly `demoEntry` in slot 0. -/
def demoCache1 : GeometryCache := { buffer := { vec := [some demoEntry], free_stack := [] } }

/-- `demoData` after its back-reference cell was pointed at slot 0. -/
def demoData1 : SurfaceData := { demoData with cache_entry := some 0 }

/-- The pipeline state after building `demoBuf`. -/
def demoState1 : PipelineState :=
  { nextBufferId := 1, log := [GpuEvent.createBuffer 0 [1, 2, 3] [(0, 1, 2)]] }

/-- The full result of the first `get` on `demoData`. -/
def demoR1 : GetResult :=
  { buffer := demoBuf, cache := demoCache1, data := demoData1, state := demoState1 }

/-- `demoData1` after its vertex payload was modified in place: new raw
data, vertex modification counter bumped, layout hash and triangle buffer
untouched. -/
def demoData2 : SurfaceData :=
  { demoData1 with
      vertex_buffer := { raw_data := [9, 9, 9], modifications_count := 1, layout_hash := 7 } }

/-- `demoData1` after a structural re-layout: same payloads and counters
but a different layout hash. -/
def demoDataL : SurfaceData :=
  { demoData1 with
      vertex_buffer := { raw_data := [1, 2, 3], modifications_count := 0, layout_hash := 8 } }

/-- The entry created for `demoData` when the requested lifetime is 0. -/
def demoEntry0 : CacheEntry := { demoEntry with time_to_live := ⟨0⟩ }

/-- The result of a first `get` on `demoData` requesting lifetime 0. -/
def demoR0 : GetResult :=
  { buffer := demoBuf
    cache := { buffer := { vec := [some demoEntry0], free_stack := [] } }
    data := demoData1
    state := demoState1 }

/-! ### Sparse slot store lemmas -/

theorem SparseBuffer.get_raw_lt_len {α : Type} {b : SparseBuffer α} {i : Nat} {e : α}
    (h : b.get_raw i = some e) : i < b.vec.length := by
  by_contra hlt
  rw [SparseBuffer.get_raw, List.getD_eq_default _ _ (Nat.le_of_not_lt hlt)] at h
  exact Option.noConfusion h

theorem SparseBuffer.get_raw_eq_getElem? {α : Type} (b : SparseBuffer α) (i : Nat) :
    b.get_raw i = (b.vec[i]?).getD none := by
  simp [SparseBuffer.get_raw, List.getD, List.get?_eq_getElem?]

theorem SparseBuffer.len_set_at {α : Type} (b : SparseBuffer α) (i : Nat) (e : α) :
    (b.set_at i e).vec.length = b.vec.length := by
  simp [SparseBuffer.set_at]

theorem SparseBuffer.get_raw_set_at_self {α : Type} {b : SparseBuffer α} {i : Nat} (e : α)
    (h : i < b.vec.length) : (b.set_at i e).get_raw i = some e := by
  rw [SparseBuffer.get_raw_eq_getElem?, SparseBuffer.set_at]
  simp [List.getElem?_set_self, h]

theorem SparseBuffer.get_raw_set_at_ne {α : Type} (b : SparseBuffer α) {i j : Nat} (e : α)
    (h : j ≠ i) : (b.set_at i e).get_raw j = b.get_raw j := by
  rw [SparseBuffer.get_raw_eq_getElem?, SparseBuffer.get_raw_eq_getElem?, SparseBuffer.set_at]
  simp [List.getElem?_set_ne (Ne.symm h)]

theorem SparseBuffer.get_raw_free_raw_self {α : Type} (b : SparseBuffer α) (i : Nat) :
    (b.free_raw i).get_raw i = none := by
  rw [SparseBuffer.free_raw]
  by_cases h : (b.get_raw i).isSome
  · rw [if_pos h]
    rw [SparseBuffer.get_raw_eq_getElem?]
    have hi : i < b.vec.length := by
      obtain ⟨e, he⟩ := Option.isSome_iff_exists.mp h
      exact SparseBuffer.get_raw_lt_len he
    simp [List.getElem?_set_self, hi]
  · rw [if_neg h]
    exact Option.not_isSome_iff_eq_none.mp h

theorem SparseBuffer.get_raw_free_raw_ne {α : Type} (b : SparseBuffer α) {i j : Nat}
    (h : j ≠ i) : (b.free_raw i).get_raw j = b.get_raw j := by
  rw [SparseBuffer.free_raw]
  by_cases hs : (b.get_raw i).isSome
  · rw [if_pos hs, SparseBuffer.get_raw_eq_getElem?, SparseBuffer.get_raw_eq_getElem?]
    simp [List.getElem?_set_ne (Ne.symm h)]
  · rw [if_neg hs]

theorem SparseBuffer.spawn_get {α : Type} {b : SparseBuffer α} (hWF : b.WF) (e : α) :
    ((b.spawn e).2).get_raw (b.spawn e).1 = some e := by
  rw [SparseBuffer.spawn]
  cases hfs : b.free_stack with
  | nil =>
    simp only
    rw [SparseBuffer.get_raw_eq_getElem?]
    simp
  | cons i rest =>
    have hi : i < b.vec.length := ((hWF.1 i (by rw [hfs]; exact List.mem_cons_self i rest)).1)
    simp only
    rw [SparseBuffer.get_raw_eq_getElem?]
    simp [List.getElem?_set_self, hi]

theorem SparseBuffer.spawn_frame {α : Type} {b : SparseBuffer α} (hWF : b.WF) (e : α)
    {j : Nat} {x : α} (hj : b.get_raw j = some x) :
    (b.spawn e).1 ≠ j ∧ ((b.spawn e).2).get_raw j = some x := by
  rw [SparseBuffer.spawn]
  cases hfs : b.free_stack with
  | nil =>
    have hjl : j < b.vec.length := SparseBuffer.get_raw_lt_len hj
    refine ⟨Nat.ne_of_gt hjl, ?_⟩
    rw [SparseBuffer.get_raw_eq_getElem?] at hj ⊢
    simp only
    rw [List.getElem?_append_left hjl]
    exact hj
  | cons i rest =>
    have hfree : b.vec.getD i none = none :=
      (hWF.1 i (by rw [hfs]; exact List.mem_cons_self i rest)).2
    have hne : i ≠ j := by
      intro hij
      rw [hij] at hfree
      rw [SparseBuffer.get_raw] at hj
      rw [hfree] at hj
      exact Option.noConfusion hj
    refine ⟨hne, ?_⟩
    rw [SparseBuffer.get_raw_eq_getElem?] at hj ⊢
    simp only
    rw [List.getElem?_set_ne hne]
    exact hj

theorem SparseBuffer.WF_set_at {α : Type} {b : SparseBuffer α} {i : Nat} (e : α)
    (hlive : (b.get_raw i).isSome) (hWF : b.WF) : (b.set_at i e).WF := by
  constructor
  · intro j hj
    have hmem : j ∈ b.free_stack := hj
    obtain ⟨hjl, hjn⟩ := hWF.1 j hmem
    have hne : j ≠ i := by
      intro hji
      rw [hji] at hjn
      rw [SparseBuffer.get_raw, hjn] at hlive
      exact Bool.noConfusion hlive
    refine ⟨by simpa [SparseBuffer.set_at] using hjl, ?_⟩
    show (b.vec.set i (some e)).getD j none = none
    rw [List.getD, List.get?_eq_getElem?, List.getElem?_set_ne (Ne.symm hne)]
    rw [List.getD, List.get?_eq_getElem?] at hjn
    exact hjn
  · exact hWF.2

theorem SparseBuffer.WF_spawn {α : Type} {b : SparseBuffer α} (hWF : b.WF) (e : α) :
    ((b.spawn e).2).WF := by
  rw [SparseBuffer.spawn]
  cases hfs : b.free_stack with
  | nil => exact ⟨by intro i hi; exact absurd hi (List.not_mem_nil i), List.nodup_nil⟩
  | cons i rest =>
    have hnd : (i :: rest).Nodup := by rw [← hfs]; exact hWF.2
    constructor
    · intro j hj
      have hjm : j ∈ b.free_stack := by rw [hfs]; exact List.mem_cons_of_mem i hj
      obtain ⟨hjl, hjn⟩ := hWF.1 j hjm
      have hne : j ≠ i := by
        intro hji
        exact (List.nodup_cons.mp hnd).1 (hji ▸ hj)
      refine ⟨by simpa using hjl, ?_⟩
      show (b.vec.set i (some e)).getD j none = none
      rw [List.getD, List.get?_eq_getElem?, List.getElem?_set_ne (Ne.symm hne)]
      rw [List.getD, List.get?_eq_getElem?] at hjn
      exact hjn
    · exact (List.nodup_cons.mp hnd).2

theorem SparseBuffer.WF_free_raw {α : Type} {b : SparseBuffer α} (hWF : b.WF) (i : Nat) :
    (b.free_raw i).WF := by
  rw [SparseBuffer.free_raw]
  by_cases hs : (b.get_raw i).isSome
  · rw [if_pos hs]
    have hil : i < b.vec.length := by
      obtain ⟨e, he⟩ := Option.isSome_iff_exists.mp hs
      exact SparseBuffer.get_raw_lt_len he
    have hinotm : i ∉ b.free_stack := by
      intro hmem
      have := (hWF.1 i hmem).2
      rw [SparseBuffer.get_raw, this] at hs
      exact Bool.noConfusion hs
    constructor
    · intro j hj
      rcases List.mem_cons.mp hj with hji | hjm
      · subst hji
        refine ⟨by simpa using hil, ?_⟩
        show (b.vec.set j none).getD j none = none
        rw [List.getD, List.get?_eq_getElem?, List.getElem?_set_self hil]
        simp
      · obtain ⟨hjl, hjn⟩ := hWF.1 j hjm
        have hne : j ≠ i := fun hji => hinotm (hji ▸ hjm)
        refine ⟨by simpa using hjl, ?_⟩
        show (b.vec.set i none).getD j none = none
        rw [List.getD, List.get?_eq_getElem?, List.getElem?_set_ne (Ne.symm hne)]
        rw [List.getD, List.get?_eq_getElem?] at hjn
        exact hjn
    · exact List.nodup_cons.mpr ⟨hinotm, hWF.2⟩
  · rw [if_neg hs]
    exact hWF

/-! ### Characterizing `update` -/

/-- The per-entry decay applied by the first loop of `update`. -/
def decayEntry (dt : ℚ) (e : CacheEntry) : CacheEntry :=
  { e with time_to_live := ⟨e.time_to_live.val - dt⟩ }

theorem decayAll_get_raw (b : SparseBuffer CacheEntry) (dt : ℚ) (i : Nat) :
    (decayAll b dt).get_raw i = (b.get_raw i).map (decayEntry dt) := by
  rw [SparseBuffer.get_raw_eq_getElem?, SparseBuffer.get_raw_eq_getElem?, decayAll]
  simp only [List.getElem?_map]
  cases b.vec[i]? with
  | none => rfl
  | some o => cases o with
    | none => rfl
    | some e => rfl

theorem decayAll_len (b : SparseBuffer CacheEntry) (dt : ℚ) :
    (decayAll b dt).len = b.len := by
  simp [decayAll, SparseBuffer.len]

theorem sweepStep_get_raw_ne (acc : SparseBuffer CacheEntry) {i j : Nat} (h : j ≠ i) :
    (sweepStep acc i).get_raw j = acc.get_raw j := by
  rw [sweepStep]
  cases hacc : acc.get_raw i with
  | none => rfl
  | some e =>
    show (if e.time_to_live.val ≤ 0 then acc.free_raw i else acc).get_raw j = acc.get_raw j
    by_cases hle : e.time_to_live.val ≤ 0
    · rw [if_pos hle]
      exact SparseBuffer.get_raw_free_raw_ne acc h
    · rw [if_neg hle]

theorem sweepStep_get_raw_self (acc : SparseBuffer CacheEntry) (i : Nat) :
    (sweepStep acc i).get_raw i =
      match acc.get_raw i with
      | some e => if e.time_to_live.val ≤ 0 then none else some e
      | none => none := by
  rw [sweepStep]
  cases hacc : acc.get_raw i with
  | none => exact hacc
  | some e =>
    show (if e.time_to_live.val ≤ 0 then acc.free_raw i else acc).get_raw i =
      if e.time_to_live.val ≤ 0 then none else some e
    by_cases hle : e.time_to_live.val ≤ 0
    · rw [if_pos hle, if_pos hle]
      exact SparseBuffer.get_raw_free_raw_self acc i
    · rw [if_neg hle, if_neg hle]
      exact hacc

theorem foldl_sweep_not_mem {l : List Nat} {j : Nat} (hj : j ∉ l)
    (b : SparseBuffer CacheEntry) :
    (l.foldl sweepStep b).get_raw j = b.get_raw j := by
  induction l generalizing b with
  | nil => rfl
  | cons a t ih =>
    rw [List.foldl_cons]
    have hja : j ≠ a := fun h => hj (h ▸ List.mem_cons_self a t)
    have hjt : j ∉ t := fun h => hj (List.mem_cons_of_mem a h)
    rw [ih hjt, sweepStep_get_raw_ne _ hja]

theorem foldl_sweep_mem {l : List Nat} (hl : l.Nodup) {j : Nat} (hj : j ∈ l)
    (b : SparseBuffer CacheEntry) :
    (l.foldl sweepStep b).get_raw j =
      match b.get_raw j with
      | some e => if e.time_to_live.val ≤ 0 then none else some e
      | none => none := by
  induction l generalizing b with
  | nil => exact absurd hj (List.not_mem_nil j)
  | cons a t ih =>
    rw [List.foldl_cons]
    obtain ⟨hat, htnd⟩ := List.nodup_cons.mp hl
    rcases List.mem_cons.mp hj with hja | hjt
    · subst hja
      rw [foldl_sweep_not_mem hat]
      exact sweepStep_get_raw_self b j
    · have hja : j ≠ a := fun h => hat (h ▸ hjt)
      rw [ih htnd hjt, sweepStep_get_raw_ne _ hja]

theorem evictSweep_get_raw (b : SparseBuffer CacheEntry) (i : Nat) :
    (evictSweep b).get_raw i =
      match b.get_raw i with
      | some e => if e.time_to_live.val ≤ 0 then none else some e
      | none => none := by
  rw [evictSweep]
  by_cases hi : i < b.len
  · exact foldl_sweep_mem (List.nodup_range _) (List.mem_range.mpr hi) b
  · rw [foldl_sweep_not_mem (fun h => hi (List.mem_range.mp h))]
    have : b.get_raw i = none := by
      rw [SparseBuffer.get_raw]
      exact List.getD_eq_default _ _ (Nat.le_of_not_lt hi)
    rw [this]

theorem update_get_raw (c : GeometryCache) (dt : ℚ) (i : Nat) :
    (c.update dt).buffer.get_raw i =
      match c.buffer.get_raw i with
      | some e =>
        if e.time_to_live.val - dt ≤ 0 then none
        else some { e with time_to_live := ⟨e.time_to_live.val - dt⟩ }
      | none => none := by
  show (evictSweep (decayAll c.buffer dt)).get_raw i = _
  rw [evictSweep_get_raw, decayAll_get_raw]
  cases c.buffer.get_raw i with
  | none => rfl
  | some e => rfl

/-! ### Characterizing `get` -/

theorem lookupHit_some {c : GeometryCache} {d : SurfaceData} {i : Nat} {e : CacheEntry}
    (h : c.lookupHit d = some (i, e)) :
    d.cache_entry = some i ∧ c.buffer.get_raw i = some e ∧
      e.layout_hash = d.vertex_buffer.layout_hash := by
  rw [GeometryCache.lookupHit] at h
  cases hce : d.cache_entry with
  | none => simp [hce] at h
  | some j =>
    simp only [hce] at h
    cases hge : c.buffer.get_raw j with
    | none => simp [hge] at h
    | some x =>
      simp only [hge] at h
      by_cases hl : x.layout_hash = d.vertex_buffer.layout_hash
      · rw [if_pos hl] at h
        simp only [Option.some.injEq, Prod.mk.injEq] at h
        obtain ⟨hij, hxe⟩ := h
        subst hij
        subst hxe
        exact ⟨rfl, hge, hl⟩
      · rw [if_neg hl] at h
        exact Option.noConfusion h

theorem lookupHit_none_of_unset {c : GeometryCache} {d : SurfaceData}
    (hce : d.cache_entry = none) : c.lookupHit d = none := by
  simp [GeometryCache.lookupHit, hce]

theorem lookupHit_none_of_dead {c : GeometryCache} {d : SurfaceData} {i : Nat}
    (hce : d.cache_entry = some i) (hge : c.buffer.get_raw i = none) :
    c.lookupHit d = none := by
  simp [GeometryCache.lookupHit, hce, hge]

theorem lookupHit_none_of_layout {c : GeometryCache} {d : SurfaceData} {i : Nat}
    {e : CacheEntry} (hce : d.cache_entry = some i) (hge : c.buffer.get_raw i = some e)
    (hne : e.layout_hash ≠ d.vertex_buffer.layout_hash) : c.lookupHit d = none := by
  simp [GeometryCache.lookupHit, hce, hge, hne]

theorem lookupHit_some_of {c : GeometryCache} {d : SurfaceData} {i : Nat} {e : CacheEntry}
    (hce : d.cache_entry = some i) (hge : c.buffer.get_raw i = some e)
    (hl : e.layout_hash = d.vertex_buffer.layout_hash) : c.lookupHit d = some (i, e) := by
  simp [GeometryCache.lookupHit, hce, hge, hl]

theorem hitUpdate_clean {e : CacheEntry} {d : SurfaceData} (s : PipelineState) (t : TimeToLive)
    (hv : d.vertex_buffer.modifications_count = e.vertex_modifications_count)
    (ht : d.geometry_buffer.modifications_count = e.triangles_modifications_count) :
    hitUpdate e d s t = ({ e with time_to_live := t }, s) := by
  simp [hitUpdate, hv, ht]

theorem hitUpdate_vertex_only {e : CacheEntry} {d : SurfaceData} (s : PipelineState)
    (t : TimeToLive)
    (hv : d.vertex_buffer.modifications_count ≠ e.vertex_modifications_count)
    (ht : d.geometry_buffer.modifications_count = e.triangles_modifications_count) :
    hitUpdate e d s t =
      ({ e with
          buffer := { e.buffer with
            vertexData := writeBytes e.buffer.vertexData 0 d.vertex_buffer.raw_data }
          vertex_modifications_count := d.vertex_buffer.modifications_count
          time_to_live := t },
       { s with log := s.log ++ [GpuEvent.setBufferData e.buffer.id 0 d.vertex_buffer.raw_data] }) := by
  simp [hitUpdate, hv, ht, GeometryBuffer.set_buffer_data]

theorem hitUpdate_fst_char (e : CacheEntry) (d : SurfaceData) (s : PipelineState)
    (t : TimeToLive) :
    (hitUpdate e d s t).1 =
      { buffer := (hitUpdate e d s t).1.buffer
        vertex_modifications_count := d.vertex_buffer.modifications_count
        triangles_modifications_count := d.geometry_buffer.modifications_count
        layout_hash := e.layout_hash
        time_to_live := t } := by
  by_cases hv : d.vertex_buffer.modifications_count = e.vertex_modifications_count <;>
    by_cases ht : d.geometry_buffer.modifications_count = e.triangles_modifications_count <;>
      simp [hitUpdate, hv, ht, GeometryBuffer.set_buffer_data, GeometryBuffer.set_triangles]

theorem hitUpdate_buffer_id (e : CacheEntry) (d : SurfaceData) (s : PipelineState)
    (t : TimeToLive) : (hitUpdate e d s t).1.buffer.id = e.buffer.id := by
  by_cases hv : d.vertex_buffer.modifications_count = e.vertex_modifications_count <;>
    by_cases ht : d.geometry_buffer.modifications_count = e.triangles_modifications_count <;>
      simp [hitUpdate, hv, ht, GeometryBuffer.set_buffer_data, GeometryBuffer.set_triangles]

theorem get_of_hit {c : GeometryCache} {d : SurfaceData} {i : Nat} {e : CacheEntry}
    (s : PipelineState) (t : TimeToLive) (h : c.lookupHit d = some (i, e)) :
    c.get s d t = some
      { buffer := (hitUpdate e d s t).1.buffer
        cache := { buffer := c.buffer.set_at i (hitUpdate e d s t).1 }
        data := d
        state := (hitUpdate e d s t).2 } := by
  obtain ⟨hce, hge, _⟩ := lookupHit_some h
  have hlt : i < c.buffer.vec.length := SparseBuffer.get_raw_lt_len hge
  have hre : (c.buffer.set_at i (hitUpdate e d s t).1).get_mut d.cache_entry
      = some (hitUpdate e d s t).1 := by
    rw [hce, SparseBuffer.get_mut]
    exact SparseBuffer.get_raw_set_at_self _ hlt
  simp only [GeometryCache.get, h]
  rw [hre]

theorem get_of_miss {c : GeometryCache} {d : SurfaceData} (s : PipelineState)
    (t : TimeToLive) (hm : c.lookupHit d = none) (hWF : c.buffer.WF) :
    c.get s d t = some
      { buffer := (GeometryBuffer.from_surface_data d s).1
        cache := { buffer := (c.buffer.spawn (freshEntry d s t)).2 }
        data := { d with cache_entry := some (c.buffer.spawn (freshEntry d s t)).1 }
        state := (GeometryBuffer.from_surface_data d s).2 } := by
  have hc : create_geometry_buffer d s c.buffer t =
      { index := (c.buffer.spawn (freshEntry d s t)).1
        buffer := (c.buffer.spawn (freshEntry d s t)).2
        state := (GeometryBuffer.from_surface_data d s).2
        data := { d with cache_entry := some (c.buffer.spawn (freshEntry d s t)).1 } } := rfl
  simp only [GeometryCache.get, hm, hc]
  rw [SparseBuffer.spawn_get hWF]
  rfl

/-- After every successful `get`, the source's back-reference names a live
slot whose entry holds the returned buffer, watermarks equal to the
source's current counters, the source's current layout hash, and the
requested lifetime; and `get` leaves the source's geometry untouched. -/
theorem get_post {c : GeometryCache} {s : PipelineState} {d : SurfaceData}
    {t : TimeToLive} {r : GetResult} (hWF : c.buffer.WF) (h : c.get s d t = some r) :
    ∃ i, r.data.cache_entry = some i ∧
      r.cache.buffer.get_raw i = some (syncedEntry d r.buffer t) ∧
      r.data.vertex_buffer = d.vertex_buffer ∧
      r.data.geometry_buffer = d.geometry_buffer := by
  cases hlh : c.lookupHit d with
  | some ie =>
    obtain ⟨i, e⟩ := ie
    rw [get_of_hit s t hlh] at h
    obtain rfl := (Option.some.inj h).symm
    obtain ⟨hce, hge, hl⟩ := lookupHit_some hlh
    refine ⟨i, hce, ?_, rfl, rfl⟩
    show (c.buffer.set_at i (hitUpdate e d s t).1).get_raw i = _
    rw [SparseBuffer.get_raw_set_at_self _ (SparseBuffer.get_raw_lt_len hge)]
    simp only [syncedEntry]
    rw [← hl]
    exact congrArg some (hitUpdate_fst_char e d s t)
  | none =>
    rw [get_of_miss s t hlh hWF] at h
    obtain rfl := (Option.some.inj h).symm
    refine ⟨(c.buffer.spawn (freshEntry d s t)).1, rfl, ?_, rfl, rfl⟩
    show ((c.buffer.spawn (freshEntry d s t)).2).get_raw _ = _
    rw [SparseBuffer.spawn_get hWF]
    rfl

/-- `get` preserves the store's resting invariant. -/
theorem get_WF {c : GeometryCache} {s : PipelineState} {d : SurfaceData}
    {t : TimeToLive} {r : GetResult} (hWF : c.buffer.WF) (h : c.get s d t = some r) :
    r.cache.buffer.WF := by
  cases hlh : c.lookupHit d with
  | some ie =>
    obtain ⟨i, e⟩ := ie
    rw [get_of_hit s t hlh] at h
    obtain rfl := (Option.some.inj h).symm
    obtain ⟨_, hge, _⟩ := lookupHit_some hlh
    exact SparseBuffer.WF_set_at _ (by rw [hge]; rfl) hWF
  | none =>
    rw [get_of_miss s t hlh hWF] at h
    obtain rfl := (Option.some.inj h).symm
    exact SparseBuffer.WF_spawn hWF _

/-- `get` never evicts: every slot live before the call is live after it,
and every slot other than the one the source ends up pointing at is
unchanged. -/
theorem get_frame {c : GeometryCache} {s : PipelineState} {d : SurfaceData}
    {t : TimeToLive} {r : GetResult} (hWF : c.buffer.WF) (h : c.get s d t = some r)
    {j : Nat} {x : CacheEntry} (hj : c.buffer.get_raw j = some x) :
    (∃ x2, r.cache.buffer.get_raw j = some x2) ∧
      (r.data.cache_entry ≠ some j → r.cache.buffer.get_raw j = some x) := by
  cases hlh : c.lookupHit d with
  | some ie =>
    obtain ⟨i, e⟩ := ie
    rw [get_of_hit s t hlh] at h
    obtain rfl := (Option.some.inj h).symm
    obtain ⟨hce, hge, _⟩ := lookupHit_some hlh
    by_cases hij : j = i
    · subst hij
      constructor
      · exact ⟨_, SparseBuffer.get_raw_set_at_self _ (SparseBuffer.get_raw_lt_len hge)⟩
      · intro hne
        exact absurd hce hne
    · constructor
      · exact ⟨x, by rw [SparseBuffer.get_raw_set_at_ne _ _ hij]; exact hj⟩
      · intro _
        rw [SparseBuffer.get_raw_set_at_ne _ _ hij]
        exact hj
  | none =>
    rw [get_of_miss s t hlh hWF] at h
    obtain rfl := (Option.some.inj h).symm
    obtain ⟨hne, hkeep⟩ := SparseBuffer.spawn_frame hWF (freshEntry d s t) hj
    exact ⟨⟨x, hkeep⟩, fun _ => hkeep⟩

/-- A second `get` on the unchanged source returned by a successful `get`
is a clean hit: same buffer, same source state, same pipeline state; only
the entry's lifetime is refreshed to the newly requested one. -/
theorem get_again {c : GeometryCache} {s : PipelineState} {d : SurfaceData}
    {t : TimeToLive} {r : GetResult} (hWF : c.buffer.WF) (h : c.get s d t = some r)
    (t2 : TimeToLive) :
    ∃ i, r.data.cache_entry = some i ∧
      r.cache.get r.state r.data t2 = some
        { buffer := r.buffer
          cache := { buffer := r.cache.buffer.set_at i (syncedEntry d r.buffer t2) }
          data := r.data
          state := r.state } := by
  obtain ⟨i, hce, hE, hvb, hgb⟩ := get_post hWF h
  have hlh : r.cache.lookupHit r.data = some (i, _) :=
    lookupHit_some_of hce hE (by simp [syncedEntry, hvb])
  refine ⟨i, hce, ?_⟩
  rw [get_of_hit r.state t2 hlh]
  rw [hitUpdate_clean r.state t2 (by simp [syncedEntry, hvb]) (by simp [syncedEntry, hgb])]
  rfl

/-! ### Concrete scenario lemmas (evaluated runs of the model) -/

unseal Rat.sub in
theorem scenario_insert : emptyCache.get demoState demoData ⟨5⟩ = some demoR1 := by
  decide

unseal Rat.sub in
theorem scenario_first_tick :
    (demoCache1.update 3).buffer.get_raw 0 = some { demoEntry with time_to_live := ⟨2⟩ } := by
  decide

unseal Rat.sub in
theorem scenario_second_tick :
    ((demoCache1.update 3).update 3).buffer.get_raw 0 = none := by
  decide

unseal Rat.sub in
theorem scenario_refresh :
    ∃ r, (demoCache1.update 3).get demoState1 demoData1 ⟨5⟩ = some r ∧
      (r.cache.update 3).buffer.get_raw 0 = some { demoEntry with time_to_live := ⟨2⟩ } := by
  refine ⟨{ buffer := demoBuf
            cache := { buffer := { vec := [some demoEntry], free_stack := [] } }
            data := demoData1, state := demoState1 }, ?_, ?_⟩ <;> decide

/-! ### The claims -/

/-- C1: for every cache state, `update(dt)` first decrements the remaining
lifetime of every live entry by `dt` and then evicts (frees) exactly those
entries whose remaining lifetime is zero or below; in particular an entry
inserted with lifetime 5 survives `update 3` (remaining 2) and is evicted
by a second `update 3`, while the same entry refreshed by a `get`
(resetting its lifetime to 5) before the second `update 3` survives with
remaining lifetime 2. -/
theorem C1_update_decays_then_evicts :
    (∀ (c : GeometryCache) (dt : ℚ) (i : Nat),
        (c.update dt).buffer.get_raw i =
          match c.buffer.get_raw i with
          | some e =>
            if e.time_to_live.val - dt ≤ 0 then none
            else some { e with time_to_live := ⟨e.time_to_live.val - dt⟩ }
          | none => none) ∧
    emptyCache.get demoState demoData ⟨5⟩ = some demoR1 ∧
    (demoCache1.update 3).buffer.get_raw 0 = some { demoEntry with time_to_live := ⟨2⟩ } ∧
    ((demoCache1.update 3).update 3).buffer.get_raw 0 = none ∧
    (∃ r, (demoCache1.update 3).get demoState1 demoData1 ⟨5⟩ = some r ∧
      (r.cache.update 3).buffer.get_raw 0 = some { demoEntry with time_to_live := ⟨2⟩ }) :=
  ⟨update_get_raw, scenario_insert, scenario_first_tick, scenario_second_tick,
    scenario_refresh⟩

/-- C2: a second `get` on a source unchanged since a previous `get` (same
counters and layout hash, no intervening `update`/`clear`) returns the very
same underlying GPU buffer object, leaves the pipeline state untouched (no
buffer build, no upload), and leaves the source untouched. -/
theorem C2_unchanged_source_same_buffer (c : GeometryCache) (s : PipelineState)
    (d : SurfaceData) (t t2 : TimeToLive) (r : GetResult)
    (hWF : c.buffer.WF) (h : c.get s d t = some r) :
    ∃ r2, r.cache.get r.state r.data t2 = some r2 ∧
      r2.buffer = r.buffer ∧ r2.state = r.state ∧ r2.data = r.data := by
  obtain ⟨i, _, hg⟩ := get_again hWF h t2
  exact ⟨_, hg, rfl, rfl, rfl⟩

/-- C2 witness at a concrete run. -/
theorem C2_witness :
    ∃ r2, demoR1.cache.get demoR1.state demoR1.data ⟨9⟩ = some r2 ∧
      r2.buffer = demoR1.buffer ∧ r2.state = demoR1.state ∧ r2.data = demoR1.data :=
  C2_unchanged_source_same_buffer emptyCache demoState demoData ⟨5⟩ ⟨9⟩ demoR1
    (by decide) (by decide)

/-- C8: `get` is total: with a well-formed store it always returns a
buffer; a back-reference that is unset, freed or out of range is handled
as a miss, and the two internal `unwrap()` re-lookups can never see
`None`. -/
theorem C8_get_total (c : GeometryCache) (s : PipelineState) (d : SurfaceData)
    (t : TimeToLive) (hWF : c.buffer.WF) : (c.get s d t).isSome := by
  cases hlh : c.lookupHit d with
  | some ie =>
    obtain ⟨i, e⟩ := ie
    rw [get_of_hit s t hlh]
    rfl
  | none =>
    rw [get_of_miss s t hlh hWF]
    rfl

/-- C8 witness at a concrete run. -/
theorem C8_witness : (emptyCache.get demoState demoData ⟨5⟩).isSome :=
  C8_get_total emptyCache demoState demoData ⟨5⟩ (by decide)

/-- C9: `get` never evicts: every entry live before a `get` is still live
after it, and every entry other than the one the source's back-reference
ends up naming is completely unchanged. -/
theorem C9_get_never_evicts (c : GeometryCache) (s : PipelineState) (d : SurfaceData)
    (t : TimeToLive) (r : GetResult) (j : Nat) (x : CacheEntry)
    (hWF : c.buffer.WF) (h : c.get s d t = some r)
    (hj : c.buffer.get_raw j = some x) :
    (∃ x2, r.cache.buffer.get_raw j = some x2) ∧
      (r.data.cache_entry ≠ some j → r.cache.buffer.get_raw j = some x) :=
  get_frame hWF h hj

/-- C9 witness at a concrete run. -/
theorem C9_witness :
    (∃ x2, demoR1.cache.buffer.get_raw 0 = some x2) ∧
      (demoR1.data.cache_entry ≠ some 0 → demoR1.cache.buffer.get_raw 0 = some demoEntry) :=
  C9_get_never_evicts demoCache1 demoState1 demoData1 ⟨5⟩ demoR1 0 demoEntry
    (by decide) (by decide) (by decide)

/-- The freshly spawned entry equals the synchronized-entry shape for the
buffer that the miss path returns. -/
theorem freshEntry_eq_syncedEntry (d : SurfaceData) (s : PipelineState) (t : TimeToLive) :
    freshEntry d s t = syncedEntry d (GeometryBuffer.from_surface_data d s).1 t := rfl

/-- The empty store holds nothing. -/
theorem emptyCache_get_raw (i : Nat) : emptyCache.buffer.get_raw i = none := by
  rw [SparseBuffer.get_raw_eq_getElem?]
  simp [emptyCache]

/-- The empty store is well formed. -/
theorem emptyCache_WF : emptyCache.buffer.WF :=
  ⟨fun i hi => absurd hi (List.not_mem_nil i), List.nodup_nil⟩

/-- C4: a `get` whose back-reference resolves to a live entry with a stale
layout hash takes the miss path: it builds a brand-new GPU buffer from the
full current vertex and triangle data (one allocation, no incremental
patch) and inserts a fresh entry with watermarks equal to the source's
current counters, regardless of the modification counters. -/
theorem C4_layout_mismatch_forces_rebuild (c : GeometryCache) (s : PipelineState)
    (d : SurfaceData) (t : TimeToLive) (i : Nat) (e : CacheEntry)
    (hWF : c.buffer.WF) (hce : d.cache_entry = some i)
    (hge : c.buffer.get_raw i = some e)
    (hne : e.layout_hash ≠ d.vertex_buffer.layout_hash) :
    ∃ r j, c.get s d t = some r ∧
      r.buffer.id = s.nextBufferId ∧
      r.buffer.vertexData = d.vertex_buffer.raw_data ∧
      r.buffer.triangles = d.geometry_buffer.triangles ∧
      r.state.nextBufferId = s.nextBufferId + 1 ∧
      r.state.log = s.log ++
        [GpuEvent.createBuffer s.nextBufferId d.vertex_buffer.raw_data
          d.geometry_buffer.triangles] ∧
      r.data.cache_entry = some j ∧
      r.cache.buffer.get_raw j = some (syncedEntry d r.buffer t) := by
  have hm : c.lookupHit d = none := lookupHit_none_of_layout hce hge hne
  refine ⟨_, (c.buffer.spawn (freshEntry d s t)).1, get_of_miss s t hm hWF,
    rfl, rfl, rfl, rfl, rfl, rfl, ?_⟩
  show ((c.buffer.spawn (freshEntry d s t)).2).get_raw _ = _
  rw [SparseBuffer.spawn_get hWF]
  rfl

/-- C4 witness at a concrete run: a cached source whose layout hash moved
from 7 to 8 while both counters stayed at 0. -/
theorem C4_witness :
    ∃ r j, demoCache1.get demoState1 demoDataL ⟨5⟩ = some r ∧
      r.buffer.id = demoState1.nextBufferId ∧
      r.buffer.vertexData = demoDataL.vertex_buffer.raw_data ∧
      r.buffer.triangles = demoDataL.geometry_buffer.triangles ∧
      r.state.nextBufferId = demoState1.nextBufferId + 1 ∧
      r.state.log = demoState1.log ++
        [GpuEvent.createBuffer demoState1.nextBufferId demoDataL.vertex_buffer.raw_data
          demoDataL.geometry_buffer.triangles] ∧
      r.data.cache_entry = some j ∧
      r.cache.buffer.get_raw j = some (syncedEntry demoDataL r.buffer ⟨5⟩) :=
  C4_layout_mismatch_forces_rebuild demoCache1 demoState1 demoDataL ⟨5⟩ 0 demoEntry
    (by decide) (by decide) (by decide) (by decide)

/-- C5: the cache is identity-keyed and keeps the back-reference
invariant: after every successful `get` the source's back-reference names
a live slot whose entry was built from that exact source (watermarks and
layout hash equal to the source's current ones, buffer the returned one);
and two distinct source objects, even with identical contents, receive two
independent live entries at distinct slots. -/
theorem C5_identity_keyed_back_reference :
    (∀ (c : GeometryCache) (s : PipelineState) (d : SurfaceData) (t : TimeToLive)
        (r : GetResult), c.buffer.WF → c.get s d t = some r →
        ∃ i, r.data.cache_entry = some i ∧
          r.cache.buffer.get_raw i = some (syncedEntry d r.buffer t)) ∧
    (∀ (c : GeometryCache) (s : PipelineState) (dA : SurfaceData) (tA : TimeToLive)
        (rA : GetResult) (dB : SurfaceData) (tB : TimeToLive),
        c.buffer.WF → c.get s dA tA = some rA → dB.cache_entry = none →
        ∃ rB iA iB, rA.cache.get rA.state dB tB = some rB ∧
          rA.data.cache_entry = some iA ∧ rB.data.cache_entry = some iB ∧ iA ≠ iB ∧
          rB.cache.buffer.get_raw iA = some (syncedEntry dA rA.buffer tA) ∧
          rB.cache.buffer.get_raw iB = some (syncedEntry dB rB.buffer tB)) := by
  constructor
  · intro c s d t r hWF h
    obtain ⟨i, hce, hE, _, _⟩ := get_post hWF h
    exact ⟨i, hce, hE⟩
  · intro c s dA tA rA dB tB hWF h hB
    obtain ⟨iA, hceA, hEA, _, _⟩ := get_post hWF h
    have hWF2 : rA.cache.buffer.WF := get_WF hWF h
    have hm : rA.cache.lookupHit dB = none := lookupHit_none_of_unset hB
    obtain ⟨hne, hkeep⟩ := SparseBuffer.spawn_frame hWF2 (freshEntry dB rA.state tB) hEA
    refine ⟨_, iA, (rA.cache.buffer.spawn (freshEntry dB rA.state tB)).1,
      get_of_miss rA.state tB hm hWF2, hceA, rfl, fun heq => hne heq.symm, hkeep, ?_⟩
    show ((rA.cache.buffer.spawn (freshEntry dB rA.state tB)).2).get_raw _ = _
    rw [SparseBuffer.spawn_get hWF2]
    rfl

/-- C5 witness at a concrete run: two identical-content sources get slots
0 and 1. -/
theorem C5_witness :
    (∃ i, demoR1.data.cache_entry = some i ∧
       demoR1.cache.buffer.get_raw i = some (syncedEntry demoData demoR1.buffer ⟨5⟩)) ∧
    (∃ rB iA iB, demoR1.cache.get demoR1.state demoDataB ⟨4⟩ = some rB ∧
       demoR1.data.cache_entry = some iA ∧ rB.data.cache_entry = some iB ∧ iA ≠ iB ∧
       rB.cache.buffer.get_raw iA = some (syncedEntry demoData demoR1.buffer ⟨5⟩) ∧
       rB.cache.buffer.get_raw iB = some (syncedEntry demoDataB rB.buffer ⟨4⟩)) :=
  ⟨C5_identity_keyed_back_reference.1 emptyCache demoState demoData ⟨5⟩ demoR1
      (by decide) (by decide),
   C5_identity_keyed_back_reference.2 emptyCache demoState demoData ⟨5⟩ demoR1
      demoDataB ⟨4⟩ (by decide) (by decide) (by decide)⟩

/-- C6: every `get`, hit or miss, sets the entry's remaining lifetime to
exactly the lifetime requested in that call (latest request wins, no
max/min aggregation); the caller-less default is the process-wide
constant. -/
theorem C6_latest_requested_lifetime_wins :
    (∀ (c : GeometryCache) (s : PipelineState) (d : SurfaceData) (t : TimeToLive)
        (r : GetResult), c.buffer.WF → c.get s d t = some r →
        ∃ i e, r.data.cache_entry = some i ∧ r.cache.buffer.get_raw i = some e ∧
          e.time_to_live = t) ∧
    TimeToLive.default = ⟨DEFAULT_RESOURCE_LIFETIME⟩ := by
  constructor
  · intro c s d t r hWF h
    obtain ⟨i, hce, hE, _, _⟩ := get_post hWF h
    exact ⟨i, _, hce, hE, rfl⟩
  · rfl

/-- C6 witness at a concrete run: the stored lifetime is exactly the
requested one. -/
theorem C6_witness :
    ∃ i e, demoR1.data.cache_entry = some i ∧
      demoR1.cache.buffer.get_raw i = some e ∧ e.time_to_live = ⟨5⟩ :=
  C6_latest_requested_lifetime_wins.1 emptyCache demoState demoData ⟨5⟩ demoR1
    (by decide) (by decide)

/-- C7: `clear()` drops all entries so the store reports zero live
entries; it cannot touch any source object's back-reference cell, so a
stale index simply resolves to nothing afterwards, and every subsequent
`get` behaves exactly like a first-time miss on a fresh cache. -/
theorem C7_clear_resets_store (c : GeometryCache) :
    (c.clear).buffer.len = 0 ∧
    (∀ i, (c.clear).buffer.get_raw i = none) ∧
    (∀ d : SurfaceData, (c.clear).buffer.get_mut d.cache_entry = none) ∧
    (∀ (s : PipelineState) (d : SurfaceData) (t : TimeToLive),
      (c.clear).get s d t = emptyCache.get s d t) ∧
    (∀ (s : PipelineState) (d : SurfaceData) (t : TimeToLive),
      ∃ r, (c.clear).get s d t = some r ∧
        r.buffer.id = s.nextBufferId ∧
        r.state.log = s.log ++
          [GpuEvent.createBuffer s.nextBufferId d.vertex_buffer.raw_data
            d.geometry_buffer.triangles] ∧
        r.data.cache_entry = some 0 ∧
        r.cache.buffer.get_raw 0 = some (syncedEntry d r.buffer t)) := by
  have hclear : c.clear = emptyCache := rfl
  rw [hclear]
  refine ⟨rfl, emptyCache_get_raw, ?_, fun s d t => rfl, ?_⟩
  · intro d
    cases hd : d.cache_entry with
    | none => rfl
    | some i =>
      show emptyCache.buffer.get_raw i = none
      exact emptyCache_get_raw i
  · intro s d t
    have hm : emptyCache.lookupHit d = none := by
      cases hd : d.cache_entry with
      | none => exact lookupHit_none_of_unset hd
      | some i => exact lookupHit_none_of_dead hd (emptyCache_get_raw i)
    rw [get_of_miss s t hm emptyCache_WF]
    refine ⟨_, rfl, rfl, rfl, rfl, ?_⟩
    have h0 : ((emptyCache.buffer.spawn (freshEntry d s t)).2).get_raw
        ((emptyCache.buffer.spawn (freshEntry d s t)).1) = some (freshEntry d s t) :=
      SparseBuffer.spawn_get emptyCache_WF _
    exact h0

/-- C10: `get` accepts a non-positive requested lifetime: the entry is
still created or refreshed and the buffer returned, it stays reachable by
a further `get`, and the next `update dt` with any `dt ≥ 0` (including
`dt = 0`) evicts it, because the eviction test is "remaining lifetime ≤ 0"
applied after the decrement. -/
theorem C10_nonpositive_lifetime_lives_until_update (c : GeometryCache)
    (s : PipelineState) (d : SurfaceData) (t : TimeToLive) (r : GetResult)
    (hWF : c.buffer.WF) (ht : t.val ≤ 0) (h : c.get s d t = some r) :
    ∃ i, r.data.cache_entry = some i ∧
      r.cache.buffer.get_raw i = some (syncedEntry d r.buffer t) ∧
      (∃ r2, r.cache.get r.state r.data TimeToLive.default = some r2 ∧
        r2.buffer = r.buffer) ∧
      (∀ dt : ℚ, 0 ≤ dt → (r.cache.update dt).buffer.get_raw i = none) := by
  obtain ⟨i, hce, hE, _, _⟩ := get_post hWF h
  obtain ⟨i2, hce2, hg2⟩ := get_again hWF h TimeToLive.default
  refine ⟨i, hce, hE, ⟨_, hg2, rfl⟩, ?_⟩
  intro dt hdt
  rw [update_get_raw, hE]
  show (if (syncedEntry d r.buffer t).time_to_live.val - dt ≤ 0 then none
    else some _) = none
  rw [if_pos]
  show t.val - dt ≤ 0
  have : t.val ≤ dt := le_trans ht hdt
  linarith

/-- C10 witness at a concrete run with requested lifetime 0. -/
theorem C10_witness :
    ∃ i, demoR0.data.cache_entry = some i ∧
      demoR0.cache.buffer.get_raw i = some (syncedEntry demoData demoR0.buffer ⟨0⟩) ∧
      (∃ r2, demoR0.cache.get demoR0.state demoR0.data TimeToLive.default = some r2 ∧
        r2.buffer = demoR0.buffer) ∧
      (∀ dt : ℚ, 0 ≤ dt → (demoR0.cache.update dt).buffer.get_raw i = none) :=
  C10_nonpositive_lifetime_lives_until_update emptyCache demoState demoData ⟨0⟩ demoR0
    (by decide) (by decide) (by decide)

/-- C3: if only the vertex modification counter moves between two `get`
calls on a cached source (layout hash and triangle counter unchanged),
the second `get` uploads the whole current vertex payload in one push at
byte offset 0, advances the vertex watermark to the new counter, and
leaves the triangle watermark, the GPU topology data and the entry's slot
identity unchanged. -/
theorem C3_vertex_only_change_uploads_vertices (c : GeometryCache)
    (s : PipelineState) (d d2 : SurfaceData) (t t2 : TimeToLive) (r : GetResult)
    (hWF : c.buffer.WF) (h : c.get s d t = some r)
    (hcell : d2.cache_entry = r.data.cache_entry)
    (hlay : d2.vertex_buffer.layout_hash = d.vertex_buffer.layout_hash)
    (hv : d.vertex_buffer.modifications_count < d2.vertex_buffer.modifications_count)
    (htc : d2.geometry_buffer.modifications_count = d.geometry_buffer.modifications_count) :
    ∃ i r2, r.cache.get r.state d2 t2 = some r2 ∧
      r2.data.cache_entry = some i ∧
      r2.data.cache_entry = r.data.cache_entry ∧
      r2.cache.buffer.get_raw i = some (syncedEntry d2 r2.buffer t2) ∧
      r2.buffer.id = r.buffer.id ∧
      r2.buffer.triangles = r.buffer.triangles ∧
      r2.buffer.vertexData = writeBytes r.buffer.vertexData 0 d2.vertex_buffer.raw_data ∧
      r2.state.log = r.state.log ++
        [GpuEvent.setBufferData r.buffer.id 0 d2.vertex_buffer.raw_data] ∧
      r2.state.nextBufferId = r.state.nextBufferId := by
  obtain ⟨i, hce, hE, hvb, hgb⟩ := get_post hWF h
  have hce2 : d2.cache_entry = some i := by rw [hcell, hce]
  have hlh : r.cache.lookupHit d2 = some (i, syncedEntry d r.buffer t) :=
    lookupHit_some_of hce2 hE (by simp [syncedEntry, hlay])
  have hvne : d2.vertex_buffer.modifications_count ≠
      (syncedEntry d r.buffer t).vertex_modifications_count := by
    simp only [syncedEntry]
    omega
  have htEq : d2.geometry_buffer.modifications_count =
      (syncedEntry d r.buffer t).triangles_modifications_count := by
    simp only [syncedEntry]
    exact htc
  have hu := hitUpdate_vertex_only (e := syncedEntry d r.buffer t) (d := d2)
    r.state t2 hvne htEq
  have hlt : i < r.cache.buffer.vec.length := SparseBuffer.get_raw_lt_len hE
  refine ⟨i, _, get_of_hit r.state t2 hlh, hce2, hcell, ?_, ?_, ?_, ?_, ?_, ?_⟩
  · show (r.cache.buffer.set_at i
        (hitUpdate (syncedEntry d r.buffer t) d2 r.state t2).1).get_raw i = _
    rw [SparseBuffer.get_raw_set_at_self _ hlt]
    rw [hu]
    simp [syncedEntry, htc, hlay]
  · show (hitUpdate (syncedEntry d r.buffer t) d2 r.state t2).1.buffer.id = r.buffer.id
    rw [hu]
    simp [syncedEntry]
  · show (hitUpdate (syncedEntry d r.buffer t) d2 r.state t2).1.buffer.triangles =
      r.buffer.triangles
    rw [hu]
    simp [syncedEntry]
  · show (hitUpdate (syncedEntry d r.buffer t) d2 r.state t2).1.buffer.vertexData =
      writeBytes r.buffer.vertexData 0 d2.vertex_buffer.raw_data
    rw [hu]
    simp [syncedEntry]
  · show (hitUpdate (syncedEntry d r.buffer t) d2 r.state t2).2.log = _
    rw [hu]
    simp [syncedEntry]
  · show (hitUpdate (syncedEntry d r.buffer t) d2 r.state t2).2.nextBufferId =
      r.state.nextBufferId
    rw [hu]

/-- C3 witness at a concrete run: the demo source's vertex payload is
rewritten in place (counter 0 → 1), layout and triangles untouched. -/
theorem C3_witness :
    ∃ i r2, demoR1.cache.get demoR1.state demoData2 ⟨6⟩ = some r2 ∧
      r2.data.cache_entry = some i ∧
      r2.data.cache_entry = demoR1.data.cache_entry ∧
      r2.cache.buffer.get_raw i = some (syncedEntry demoData2 r2.buffer ⟨6⟩) ∧
      r2.buffer.id = demoR1.buffer.id ∧
      r2.buffer.triangles = demoR1.buffer.triangles ∧
      r2.buffer.vertexData =
        writeBytes demoR1.buffer.vertexData 0 demoData2.vertex_buffer.raw_data ∧
      r2.state.log = demoR1.state.log ++
        [GpuEvent.setBufferData demoR1.buffer.id 0 demoData2.vertex_buffer.raw_data] ∧
      r2.state.nextBufferId = demoR1.state.nextBufferId :=
  C3_vertex_only_change_uploads_vertices emptyCache demoState demoData demoData2
    ⟨5⟩ ⟨6⟩ demoR1 (by decide) (by decide) (by decide) (by decide) (by decide) (by decide)
